import Mathlib

/-
Verification of the AI streaming relay and persistence engine of the
finance repository (src/api/ai_chat.go and src/api/ai_analysis.go).

The relay loops are shallowly embedded as pure Lean functions:
 - the upstream HTTP body is a list of complete lines (bufio ReadBytes
   results; a trailing unterminated fragment is discarded by the Go code
   together with the io.EOF error, so it never appears in the list),
   followed by an Ending (clean EOF or a read fault);
 - json.Unmarshal into map[string]interface\x7b\x7d is an oracle
   `decode : String → Option (List (String × JVal))` (Unmarshal into a
   Go map succeeds only on a JSON object, yielding its fields);
 - SSE writes and gorm Create calls become events in an output trace;
 - the per-iteration ctx.Done() check is a fuel counter: `some k` means
   the downstream disconnect becomes observable at the k-th top-of-loop
   check, `none` means the client never disconnects;
 - bytes.TrimSpace is modelled on the ASCII whitespace subset of
   unicode.IsSpace, which is the relevant alphabet for SSE framing.
-/

namespace Finance

/-- Go interface value as produced by encoding/json Unmarshal. -/
inductive JVal where
  | str (s : String)
  | num (q : ℚ)
  | boolean (b : Bool)
  | null
  | arr (xs : List JVal)
  | obj (fields : List (String × JVal))

/-- Lookup of a key in an unmarshalled JSON object (Go map indexing;
keys produced by Unmarshal are unique, so list lookup is faithful). -/
def jLookup : List (String × JVal) → String → Option JVal
  | [], _ => none
  | (k, v) :: rest, key => if k = key then some v else jLookup rest key

/-- The nested type-assertion chain from both relay loops:
choices[0].delta.content, with content staying "" whenever any assertion
fails (ai_chat.go lines 181-190, ai_analysis.go lines 387-396). -/
def extractContent (fields : List (String × JVal)) : String :=
  match jLookup fields "choices" with
  | some (JVal.arr (first :: _)) =>
    match first with
    | JVal.obj choiceFields =>
      match jLookup choiceFields "delta" with
      | some (JVal.obj deltaFields) =>
        match jLookup deltaFields "content" with
        | some (JVal.str v) => v
        | _ => ""
      | _ => ""
    | _ => ""
  | _ => ""

/-- ASCII whitespace as trimmed by bytes.TrimSpace. -/
def isGoSpace (c : Char) : Bool :=
  c == ' ' || c == '\t' || c == '\n' || c == '\r' ||
    c == Char.ofNat 11 || c == Char.ofNat 12

/-- bytes.TrimSpace. -/
def trimSpace (s : String) : String :=
  String.mk (((s.data.dropWhile isGoSpace).reverse.dropWhile isGoSpace).reverse)

/-- The SSE event marker "data: " checked with bytes.HasPrefix. -/
def dataMarker : List Char := "data: ".data

/-- bytes.HasPrefix(line, "data: "). -/
def hasDataMarker (s : String) : Bool :=
  List.isPrefixOf dataMarker s.data

/-- bytes.TrimPrefix(line, "data: "): drops the 6-byte marker when
present, returns the line unchanged otherwise. -/
def dropMarker (s : String) : String :=
  if hasDataMarker s then String.mk (s.data.drop 6) else s

/-- strings.TrimRight(s, "/"): removes every trailing '/' character. -/
def trimRightSlash (s : String) : String :=
  String.mk ((s.data.reverse.dropWhile (fun c => c == '/')).reverse)

/-- Outbound request URL built by both paths
(ai_chat.go line 96, ai_analysis.go line 194). -/
def buildChatCompletionsURL (baseURL : String) : String :=
  trimRightSlash baseURL ++ "/chat/completions"

/-- One downstream SSE JSON frame (sseChatFrame / sseAnalysisFrame). -/
inductive Frame where
  | delta (content : String)
  | done
  | error (content : String)
deriving DecidableEq

/-- models.AIChatMessage as written by the chat relay. -/
structure AIChatMessage where
  aiModelID : Nat
  userID : Nat
  userText : String
  aiText : String
deriving DecidableEq

/-- models.AIAnalysisHistory as written by the analysis relay. -/
structure AIAnalysisHistory where
  aiModelID : Nat
  userID : Nat
  startDate : String
  endDate : String
  result : String
deriving DecidableEq

/-- Observable actions of one relay invocation, in program order:
an SSE frame written downstream, or a transcript row handed to
database.DB.Create. -/
inductive RelayEvent (T : Type) where
  | frame (f : Frame)
  | store (t : T)
deriving DecidableEq

/-- Terminal disposition of the chat relay loop. -/
inductive Outcome where
  | completed
  | cancelled
  | faulted
deriving DecidableEq

/-- How the upstream body ends once its listed lines are exhausted:
io.EOF (clean close) or any other read error. -/
inductive Ending where
  | eof
  | fault
deriving DecidableEq

/-- Return value of callAIModelStreamAndStore (nil or a wrapped error;
the wrapped cause text of read faults is abstracted away). -/
inductive AnalysisResult where
  | ok
  | err (msg : String)
deriving DecidableEq

/-- Whether the per-iteration ctx.Done() select observes the disconnect
now: fuel `some 0` fires (and keeps firing, as a done context stays
done). -/
def cancelNow : Option Nat → Bool
  | some 0 => true
  | _ => false

/-- One loop iteration elapses before the next ctx.Done() check. -/
def tickCancel : Option Nat → Option Nat
  | some n => some (n - 1)
  | none => none

/-- The transcript row built at both store sites of ChatStream
(ai_chat.go lines 159-169 and 202-212). -/
def chatMsg (m u : Nat) (msg acc : String) : AIChatMessage :=
  AIChatMessage.mk m u msg acc

/-- The read loop of ChatStream (ai_chat.go lines 125-215), from the
first ctx.Done() check up to and including the post-loop
finishedNormally block. -/
def chatLoop (decode : String → Option (List (String × JVal))) (m u : Nat)
    (msg : String) (ending : Ending) :
    List String → Option Nat → String → List (RelayEvent AIChatMessage) × Outcome
  | [], cancel, acc =>
    if cancelNow cancel then ([], Outcome.cancelled)
    else
      match ending with
      | Ending.eof =>
        ([RelayEvent.store (chatMsg m u msg acc), RelayEvent.frame Frame.done],
         Outcome.completed)
      | Ending.fault => ([], Outcome.faulted)
  | l :: rest, cancel, acc =>
    if cancelNow cancel then ([], Outcome.cancelled)
    else
      let t := trimSpace l
      if t.data = [] then chatLoop decode m u msg ending rest (tickCancel cancel) acc
      else if hasDataMarker t = false then
        chatLoop decode m u msg ending rest (tickCancel cancel) acc
      else
        let d := dropMarker t
        if d = "[DONE]" then
          ([RelayEvent.store (chatMsg m u msg acc), RelayEvent.frame Frame.done,
            RelayEvent.store (chatMsg m u msg acc), RelayEvent.frame Frame.done],
           Outcome.completed)
        else
          match decode d with
          | none => chatLoop decode m u msg ending rest (tickCancel cancel) acc
          | some fields =>
            let c := extractContent fields
            if c = "" then chatLoop decode m u msg ending rest (tickCancel cancel) acc
            else
              let r := chatLoop decode m u msg ending rest (tickCancel cancel) (acc ++ c)
              (RelayEvent.frame (Frame.delta c) :: r.1, r.2)

/-- One chat relay invocation (streaming phase), starting with an empty
strings.Builder. -/
def chatRelay (decode : String → Option (List (String × JVal))) (m u : Nat)
    (msg : String) (cancel : Option Nat) (lines : List String) (ending : Ending) :
    List (RelayEvent AIChatMessage) × Outcome :=
  chatLoop decode m u msg ending lines cancel ""

/-- The upstream HTTP response as the relay sees it after client.Do:
status code, the fully read error body (used only on non-200), and the
streamed body. -/
structure UpstreamResponse where
  statusCode : Nat
  errBody : String
  lines : List String
  ending : Ending

/-- ChatStream from the status check onward (ai_chat.go lines 114-215):
a non-200 status writes an error frame then a done frame over SSE and
returns; a 200 enters the read loop. -/
def chatHandleResponse (decode : String → Option (List (String × JVal))) (m u : Nat)
    (msg : String) (cancel : Option Nat) (resp : UpstreamResponse) :
    List (RelayEvent AIChatMessage) × Outcome :=
  if resp.statusCode ≠ 200 then
    ([RelayEvent.frame (Frame.error
        ("AI服务返回错误: " ++ Nat.repr resp.statusCode ++ " " ++ resp.errBody)),
      RelayEvent.frame Frame.done],
     Outcome.faulted)
  else chatRelay decode m u msg cancel resp.lines resp.ending

/-- processAnalysisLineToJSON (ai_analysis.go lines 370-402): SSE writes
are returned as frames alongside the (delta, done) pair. -/
def processAnalysisLineToJSON (decode : String → Option (List (String × JVal)))
    (line : String) : List Frame × String × Bool :=
  let t := trimSpace line
  if t.data = [] then ([], "", false)
  else if hasDataMarker t = false then ([], "", false)
  else
    let d := dropMarker t
    if d = "[DONE]" then ([Frame.done], "", true)
    else
      match decode d with
      | none => ([], "", false)
      | some fields =>
        let c := extractContent fields
        if c = "" then ([], "", false)
        else ([Frame.delta c], c, false)

/-- The history row built by callAIModelStreamAndStore
(ai_analysis.go lines 260-266). -/
def analysisRecord (m u : Nat) (sd ed out : String) : AIAnalysisHistory :=
  AIAnalysisHistory.mk m u sd ed out

/-- The read loop of callAIModelStreamAndStore (ai_analysis.go lines
224-272), from the first ctx.Done() check up to and including the
post-loop finished block. -/
def analysisLoop (decode : String → Option (List (String × JVal))) (m u : Nat)
    (sd ed : String) (ending : Ending) :
    List String → Option Nat → String →
      List (RelayEvent AIAnalysisHistory) × AnalysisResult
  | [], cancel, out =>
    if cancelNow cancel then ([], AnalysisResult.err "客户端断开连接")
    else
      match ending with
      | Ending.eof =>
        ([RelayEvent.store (analysisRecord m u sd ed out), RelayEvent.frame Frame.done],
         AnalysisResult.ok)
      | Ending.fault => ([], AnalysisResult.err "读取流数据失败")
  | l :: rest, cancel, out =>
    if cancelNow cancel then ([], AnalysisResult.err "客户端断开连接")
    else if l.data = [] then analysisLoop decode m u sd ed ending rest (tickCancel cancel) out
    else
      match processAnalysisLineToJSON decode l with
      | (frames, delta, doneFlag) =>
        let out2 := if delta = "" then out else out ++ delta
        if doneFlag then
          (frames.map RelayEvent.frame ++
            [RelayEvent.store (analysisRecord m u sd ed out2), RelayEvent.frame Frame.done],
           AnalysisResult.ok)
        else
          let r := analysisLoop decode m u sd ed ending rest (tickCancel cancel) out2
          (frames.map RelayEvent.frame ++ r.1, r.2)

/-- One analysis relay invocation (streaming phase), starting with an
empty strings.Builder. -/
def analysisRelay (decode : String → Option (List (String × JVal))) (m u : Nat)
    (sd ed : String) (cancel : Option Nat) (lines : List String) (ending : Ending) :
    List (RelayEvent AIAnalysisHistory) × AnalysisResult :=
  analysisLoop decode m u sd ed ending lines cancel ""

/-- callAIModelStreamAndStore from the status check onward
(ai_analysis.go lines 210-272): a non-200 status returns a wrapped
error without writing any SSE frame; a 200 enters the read loop. -/
def analysisHandleResponse (decode : String → Option (List (String × JVal))) (m u : Nat)
    (sd ed : String) (cancel : Option Nat) (resp : UpstreamResponse) :
    List (RelayEvent AIAnalysisHistory) × AnalysisResult :=
  if resp.statusCode ≠ 200 then
    ([], AnalysisResult.err
      ("AI服务返回错误: " ++ Nat.repr resp.statusCode ++ ", " ++ resp.errBody))
  else analysisRelay decode m u sd ed cancel resp.lines resp.ending

/-- One message of the outbound chat/completions request body. -/
structure ChatRequestMessage where
  role : String
  content : String
deriving DecidableEq

/-- The outbound chat/completions request body; temperature is the
source float literal read as a rational, `none` meaning the field is
absent from the JSON object. -/
structure ChatCompletionRequest where
  model : String
  messages : List ChatRequestMessage
  stream : Bool
  temperature : Option ℚ
deriving DecidableEq

/-- The constant system message of the chat path (ai_chat.go line 82). -/
def chatSystemContent : String :=
  "你是一个专业、友好、简洁的个人财务助手。请用中文回答。"

/-- Request body built by ChatStream (ai_chat.go lines 79-87). -/
def buildChatRequestBody (modelName userMessage : String) : ChatCompletionRequest :=
  ChatCompletionRequest.mk modelName
    [ChatRequestMessage.mk "system" chatSystemContent,
     ChatRequestMessage.mk "user" userMessage]
    true (some (3 / 10))

/-- Request body built by callAIModelStreamAndStore
(ai_analysis.go lines 177-186). -/
def buildAnalysisRequestBody (modelName prompt : String) : ChatCompletionRequest :=
  ChatCompletionRequest.mk modelName [ChatRequestMessage.mk "user" prompt] true none

/-- Classification of one raw upstream line, mirroring the shared
frame-translation chain of both loops. -/
inductive LineKind where
  | noise
  | term
  | delta (content : String)
deriving DecidableEq

/-- The frame-translation chain as a pure classifier. -/
def classifyLine (decode : String → Option (List (String × JVal))) (l : String) :
    LineKind :=
  let t := trimSpace l
  if t.data = [] then LineKind.noise
  else if hasDataMarker t = false then LineKind.noise
  else
    let d := dropMarker t
    if d = "[DONE]" then LineKind.term
    else
      match decode d with
      | none => LineKind.noise
      | some fields =>
        let c := extractContent fields
        if c = "" then LineKind.noise else LineKind.delta c

/-- Delta contents extracted before the first terminal sentinel line. -/
def deltasBeforeTerm (decode : String → Option (List (String × JVal))) :
    List String → List String
  | [] => []
  | l :: rest =>
    match classifyLine decode l with
    | LineKind.noise => deltasBeforeTerm decode rest
    | LineKind.term => []
    | LineKind.delta c => c :: deltasBeforeTerm decode rest

/-- Whether a terminal sentinel line occurs in the stream. -/
def hasTermLine (decode : String → Option (List (String × JVal))) :
    List String → Bool
  | [] => false
  | l :: rest =>
    match classifyLine decode l with
    | LineKind.noise => hasTermLine decode rest
    | LineKind.term => true
    | LineKind.delta _ => hasTermLine decode rest

/-- In-order concatenation of a list of strings. -/
def strConcat : List String → String
  | [] => ""
  | c :: rest => c ++ strConcat rest

/-- The delta frames corresponding to a list of delta contents. -/
def deltaFrames {T : Type} (ds : List String) : List (RelayEvent T) :=
  ds.map (fun c => RelayEvent.frame (Frame.delta c))

/-- Is this event the done frame. -/
def isDoneFrame {T : Type} : RelayEvent T → Bool
  | RelayEvent.frame Frame.done => true
  | _ => false

/-- Is this event a transcript store. -/
def isStoreEvent {T : Type} : RelayEvent T → Bool
  | RelayEvent.store _ => true
  | _ => false

/-- Helper scan: every done frame in the list is immediately preceded
by a store event, given the element preceding the list. -/
def storeBeforeDoneAux {T : Type} : RelayEvent T → List (RelayEvent T) → Bool
  | _, [] => true
  | prev, e :: rest =>
    (if isDoneFrame e then isStoreEvent prev else true) && storeBeforeDoneAux e rest

/-- Every done frame in the trace is immediately preceded by a store. -/
def storeBeforeEveryDone {T : Type} : List (RelayEvent T) → Bool
  | [] => true
  | e :: rest => !(isDoneFrame e) && storeBeforeDoneAux e rest

/-- Helper scan: tracks whether a done frame has been seen. -/
def doneBeforeEveryStoreAux {T : Type} : Bool → List (RelayEvent T) → Bool
  | _, [] => true
  | seen, RelayEvent.store _ :: rest => seen && doneBeforeEveryStoreAux seen rest
  | _, RelayEvent.frame Frame.done :: rest => doneBeforeEveryStoreAux true rest
  | seen, _ :: rest => doneBeforeEveryStoreAux seen rest

/-- Every store event in the trace is preceded (anywhere earlier) by a
done frame. -/
def doneBeforeEveryStore {T : Type} (l : List (RelayEvent T)) : Bool :=
  doneBeforeEveryStoreAux false l

/-- Parse-failure oracle: every payload fails json.Unmarshal. -/
def decodeNone : String → Option (List (String × JVal)) := fun _ => none

/-- A well-formed delta envelope with the given content string. -/
def fieldsFor (c : String) : List (String × JVal) :=
  [("choices", JVal.arr [JVal.obj [("delta", JVal.obj [("content", JVal.str c)])]])]

/-- Concrete oracle for witnesses: two payloads parse to delta
envelopes with contents "Hi" and " there", one parses to an envelope
with empty content, everything else fails to parse. -/
def decode0 : String → Option (List (String × JVal)) := fun s =>
  if s = "one" then some (fieldsFor "Hi")
  else if s = "two" then some (fieldsFor " there")
  else if s = "empty" then some (fieldsFor "")
  else none

theorem strAppend_empty (s : String) : s ++ "" = s := by
  cases s with
  | mk l =>
    show String.mk (l ++ []) = String.mk l
    rw [List.append_nil]

theorem empty_strAppend (s : String) : "" ++ s = s := by
  cases s with
  | mk l => rfl

theorem strAppend_assoc (a b c : String) : a ++ b ++ c = a ++ (b ++ c) := by
  cases a with
  | mk la =>
    cases b with
    | mk lb =>
      cases c with
      | mk lc =>
        show String.mk (la ++ lb ++ lc) = String.mk (la ++ (lb ++ lc))
        rw [List.append_assoc]

theorem cancelNow_none : cancelNow none = false := rfl

theorem tickCancel_none : tickCancel none = none := rfl

theorem chatLoop_cons_eq (decode : String → Option (List (String × JVal))) (m u : Nat)
    (msg : String) (ending : Ending) (l : String) (rest : List String)
    (cancel : Option Nat) (acc : String) (h : cancelNow cancel = false) :
    chatLoop decode m u msg ending (l :: rest) cancel acc =
      match classifyLine decode l with
      | LineKind.noise => chatLoop decode m u msg ending rest (tickCancel cancel) acc
      | LineKind.term =>
        ([RelayEvent.store (chatMsg m u msg acc), RelayEvent.frame Frame.done,
          RelayEvent.store (chatMsg m u msg acc), RelayEvent.frame Frame.done],
         Outcome.completed)
      | LineKind.delta c =>
        (RelayEvent.frame (Frame.delta c) ::
           (chatLoop decode m u msg ending rest (tickCancel cancel) (acc ++ c)).1,
         (chatLoop decode m u msg ending rest (tickCancel cancel) (acc ++ c)).2) := by
  simp only [chatLoop, classifyLine, h, Bool.false_eq_true, if_false]
  split_ifs with h1 h2 h3
  · rfl
  · rfl
  · rfl
  · cases hdec : decode (dropMarker (trimSpace l)) with
    | none => rfl
    | some fields =>
      by_cases hc : extractContent fields = ""
      · simp [hc]
      · simp [hc]

theorem processLine_classify_eq (decode : String → Option (List (String × JVal)))
    (l : String) :
    processAnalysisLineToJSON decode l =
      match classifyLine decode l with
      | LineKind.noise => ([], "", false)
      | LineKind.term => ([Frame.done], "", true)
      | LineKind.delta c => ([Frame.delta c], c, false) := by
  simp only [processAnalysisLineToJSON, classifyLine]
  split_ifs with h1 h2 h3
  · rfl
  · rfl
  · rfl
  · cases hdec : decode (dropMarker (trimSpace l)) with
    | none => rfl
    | some fields =>
      by_cases hc : extractContent fields = ""
      · simp [hc]
      · simp [hc]

theorem classify_delta_ne_empty (decode : String → Option (List (String × JVal)))
    (l c : String) (h : classifyLine decode l = LineKind.delta c) : c ≠ "" := by
  simp only [classifyLine] at h
  split_ifs at h with h1 h2 h3
  cases hdec : decode (dropMarker (trimSpace l)) with
  | none => simp [hdec] at h
  | some fields =>
    rw [hdec] at h
    by_cases hc : extractContent fields = ""
    · simp [hc] at h
    · simp only [hc, if_neg hc] at h
      injection h with h4
      rw [← h4]
      exact hc

theorem trimSpace_of_nil_data (l : String) (h : l.data = []) :
    trimSpace l = String.mk [] := by
  cases l with
  | mk ld =>
    simp only [String.data] at h
    subst h
    rfl

theorem classify_of_nil_data (decode : String → Option (List (String × JVal)))
    (l : String) (h : l.data = []) : classifyLine decode l = LineKind.noise := by
  simp [classifyLine, trimSpace_of_nil_data l h]

theorem analysisLoop_cons_eq (decode : String → Option (List (String × JVal))) (m u : Nat)
    (sd ed : String) (ending : Ending) (l : String) (rest : List String)
    (cancel : Option Nat) (out : String) (h : cancelNow cancel = false) :
    analysisLoop decode m u sd ed ending (l :: rest) cancel out =
      match classifyLine decode l with
      | LineKind.noise => analysisLoop decode m u sd ed ending rest (tickCancel cancel) out
      | LineKind.term =>
        ([RelayEvent.frame Frame.done,
          RelayEvent.store (analysisRecord m u sd ed out), RelayEvent.frame Frame.done],
         AnalysisResult.ok)
      | LineKind.delta c =>
        (RelayEvent.frame (Frame.delta c) ::
           (analysisLoop decode m u sd ed ending rest (tickCancel cancel) (out ++ c)).1,
         (analysisLoop decode m u sd ed ending rest (tickCancel cancel) (out ++ c)).2) := by
  simp only [analysisLoop, h, Bool.false_eq_true, if_false]
  by_cases hraw : l.data = []
  · simp [hraw, classify_of_nil_data decode l hraw]
  · simp only [if_neg hraw, processLine_classify_eq]
    cases hcl : classifyLine decode l with
    | noise => simp
    | term => simp
    | delta c =>
      have hc : c ≠ "" := classify_delta_ne_empty decode l c hcl
      simp [hc]

theorem chatLoop_none_eq (decode : String → Option (List (String × JVal))) (m u : Nat)
    (msg : String) (ending : Ending) :
    ∀ (lines : List String) (acc : String),
    chatLoop decode m u msg ending lines none acc =
      if hasTermLine decode lines then
        (deltaFrames (deltasBeforeTerm decode lines) ++
          [RelayEvent.store (chatMsg m u msg (acc ++ strConcat (deltasBeforeTerm decode lines))),
           RelayEvent.frame Frame.done,
           RelayEvent.store (chatMsg m u msg (acc ++ strConcat (deltasBeforeTerm decode lines))),
           RelayEvent.frame Frame.done],
         Outcome.completed)
      else
        match ending with
        | Ending.eof =>
          (deltaFrames (deltasBeforeTerm decode lines) ++
            [RelayEvent.store (chatMsg m u msg (acc ++ strConcat (deltasBeforeTerm decode lines))),
             RelayEvent.frame Frame.done],
           Outcome.completed)
        | Ending.fault => (deltaFrames (deltasBeforeTerm decode lines), Outcome.faulted) := by
  intro lines
  induction lines with
  | nil =>
    intro acc
    simp only [chatLoop, cancelNow, hasTermLine, deltasBeforeTerm, deltaFrames, strConcat,
      strAppend_empty, Bool.false_eq_true, if_false, List.map_nil, List.nil_append]
  | cons l rest ih =>
    intro acc
    rw [chatLoop_cons_eq decode m u msg ending l rest none acc rfl]
    cases hcl : classifyLine decode l with
    | noise =>
      simp only [tickCancel, ih]
      simp [hasTermLine, deltasBeforeTerm, hcl]
    | term =>
      simp [hasTermLine, deltasBeforeTerm, hcl, deltaFrames, strConcat, strAppend_empty]
    | delta c =>
      simp only [tickCancel]
      rw [ih (acc ++ c)]
      simp only [hasTermLine, deltasBeforeTerm, hcl, deltaFrames, strConcat, List.map_cons,
        List.cons_append, strAppend_assoc]
      cases hterm : hasTermLine decode rest <;> cases ending <;>
        simp [hterm, strAppend_assoc]

theorem analysisLoop_none_eq (decode : String → Option (List (String × JVal))) (m u : Nat)
    (sd ed : String) (ending : Ending) :
    ∀ (lines : List String) (out : String),
    analysisLoop decode m u sd ed ending lines none out =
      if hasTermLine decode lines then
        (deltaFrames (deltasBeforeTerm decode lines) ++
          [RelayEvent.frame Frame.done,
           RelayEvent.store (analysisRecord m u sd ed
             (out ++ strConcat (deltasBeforeTerm decode lines))),
           RelayEvent.frame Frame.done],
         AnalysisResult.ok)
      else
        match ending with
        | Ending.eof =>
          (deltaFrames (deltasBeforeTerm decode lines) ++
            [RelayEvent.store (analysisRecord m u sd ed
               (out ++ strConcat (deltasBeforeTerm decode lines))),
             RelayEvent.frame Frame.done],
           AnalysisResult.ok)
        | Ending.fault =>
          (deltaFrames (deltasBeforeTerm decode lines),
           AnalysisResult.err "读取流数据失败") := by
  intro lines
  induction lines with
  | nil =>
    intro out
    simp only [analysisLoop, cancelNow, hasTermLine, deltasBeforeTerm, deltaFrames, strConcat,
      strAppend_empty, Bool.false_eq_true, if_false, List.map_nil, List.nil_append]
  | cons l rest ih =>
    intro out
    rw [analysisLoop_cons_eq decode m u sd ed ending l rest none out rfl]
    cases hcl : classifyLine decode l with
    | noise =>
      simp only [tickCancel, ih]
      simp [hasTermLine, deltasBeforeTerm, hcl]
    | term =>
      simp [hasTermLine, deltasBeforeTerm, hcl, deltaFrames, strConcat, strAppend_empty]
    | delta c =>
      simp only [tickCancel]
      rw [ih (out ++ c)]
      simp only [hasTermLine, deltasBeforeTerm, hcl, deltaFrames, strConcat, List.map_cons,
        List.cons_append, strAppend_assoc]
      cases hterm : hasTermLine decode rest <;> cases ending <;>
        simp [hterm, strAppend_assoc]

theorem cancelNow_false_of_not (cancel : Option Nat) (h : ¬ cancelNow cancel = true) :
    cancelNow cancel = false := by
  cases h2 : cancelNow cancel
  · rfl
  · exact absurd h2 h

theorem mem_deltaFrames {T : Type} (ds : List String) (e : RelayEvent T)
    (h : e ∈ deltaFrames ds) : ∃ c, e = RelayEvent.frame (Frame.delta c) := by
  simp only [deltaFrames, List.mem_map] at h
  obtain ⟨c, _, he⟩ := h
  exact ⟨c, he.symm⟩

theorem chatLoop_cancel_cases (decode : String → Option (List (String × JVal))) (m u : Nat)
    (msg : String) (ending : Ending) :
    ∀ (lines : List String) (cancel : Option Nat) (acc : String),
    chatLoop decode m u msg ending lines cancel acc =
      chatLoop decode m u msg ending lines none acc ∨
    ((chatLoop decode m u msg ending lines cancel acc).2 = Outcome.cancelled ∧
      ∀ e ∈ (chatLoop decode m u msg ending lines cancel acc).1,
        ∃ c, e = RelayEvent.frame (Frame.delta c)) := by
  intro lines
  induction lines with
  | nil =>
    intro cancel acc
    by_cases hc : cancelNow cancel = true
    · right
      simp [chatLoop, hc]
    · left
      have hcf := cancelNow_false_of_not cancel hc
      simp only [chatLoop, hcf, cancelNow_none, Bool.false_eq_true, if_false]
  | cons l rest ih =>
    intro cancel acc
    by_cases hc : cancelNow cancel = true
    · right
      simp [chatLoop, hc]
    · have hcf := cancelNow_false_of_not cancel hc
      rw [chatLoop_cons_eq decode m u msg ending l rest cancel acc hcf,
          chatLoop_cons_eq decode m u msg ending l rest none acc rfl]
      simp only [tickCancel_none]
      cases hcl : classifyLine decode l with
      | noise => exact ih (tickCancel cancel) acc
      | term => left; rfl
      | delta c =>
        cases ih (tickCancel cancel) (acc ++ c) with
        | inl heq =>
          left
          dsimp only
          rw [heq]
        | inr hr =>
          right
          refine ⟨hr.1, ?_⟩
          intro e he
          rcases List.mem_cons.mp he with h1 | h1
          · exact ⟨c, h1⟩
          · exact hr.2 e h1

theorem analysisLoop_cancel_cases (decode : String → Option (List (String × JVal)))
    (m u : Nat) (sd ed : String) (ending : Ending) :
    ∀ (lines : List String) (cancel : Option Nat) (out : String),
    analysisLoop decode m u sd ed ending lines cancel out =
      analysisLoop decode m u sd ed ending lines none out ∨
    ((analysisLoop decode m u sd ed ending lines cancel out).2 =
        AnalysisResult.err "客户端断开连接" ∧
      ∀ e ∈ (analysisLoop decode m u sd ed ending lines cancel out).1,
        ∃ c, e = RelayEvent.frame (Frame.delta c)) := by
  intro lines
  induction lines with
  | nil =>
    intro cancel out
    by_cases hc : cancelNow cancel = true
    · right
      simp [analysisLoop, hc]
    · left
      have hcf := cancelNow_false_of_not cancel hc
      simp only [analysisLoop, hcf, cancelNow_none, Bool.false_eq_true, if_false]
  | cons l rest ih =>
    intro cancel out
    by_cases hc : cancelNow cancel = true
    · right
      simp [analysisLoop, hc]
    · have hcf := cancelNow_false_of_not cancel hc
      rw [analysisLoop_cons_eq decode m u sd ed ending l rest cancel out hcf,
          analysisLoop_cons_eq decode m u sd ed ending l rest none out rfl]
      simp only [tickCancel_none]
      cases hcl : classifyLine decode l with
      | noise => exact ih (tickCancel cancel) out
      | term => left; rfl
      | delta c =>
        cases ih (tickCancel cancel) (out ++ c) with
        | inl heq =>
          left
          dsimp only
          rw [heq]
        | inr hr =>
          right
          refine ⟨hr.1, ?_⟩
          intro e he
          rcases List.mem_cons.mp he with h1 | h1
          · exact ⟨c, h1⟩
          · exact hr.2 e h1

theorem chatLoop_none_not_cancelled (decode : String → Option (List (String × JVal)))
    (m u : Nat) (msg : String) (ending : Ending) (lines : List String) (acc : String) :
    (chatLoop decode m u msg ending lines none acc).2 ≠ Outcome.cancelled := by
  rw [chatLoop_none_eq]
  split_ifs with h
  · simp
  · cases ending <;> simp

theorem analysisLoop_none_not_disconnect (decode : String → Option (List (String × JVal)))
    (m u : Nat) (sd ed : String) (ending : Ending) (lines : List String) (out : String) :
    (analysisLoop decode m u sd ed ending lines none out).2 ≠
      AnalysisResult.err "客户端断开连接" := by
  rw [analysisLoop_none_eq]
  split_ifs with h
  · simp
  · cases ending
    · simp
    · simp only []
      intro hcontra
      have : ("读取流数据失败" : String) = "客户端断开连接" := by
        injection hcontra
      exact absurd this (by decide)

theorem head_dropWhile_eq_some {α : Type} (p : α → Bool) :
    ∀ (m : List α) (a : α), (m.dropWhile p).head? = some a → p a = false := by
  intro m
  induction m with
  | nil =>
    intro a h
    simp [List.dropWhile] at h
  | cons x xs ih =>
    intro a h
    by_cases hx : p x = true
    · rw [List.dropWhile_cons, if_pos hx] at h
      exact ih a h
    · rw [List.dropWhile_cons, if_neg hx] at h
      simp only [List.head?_cons, Option.some.injEq] at h
      rw [← h]
      cases h2 : p x
      · rfl
      · exact absurd h2 hx

theorem trimRightSlash_append_slash (b : String) :
    trimRightSlash (b ++ "/") = trimRightSlash b := by
  cases b with
  | mk l =>
    show trimRightSlash (String.mk (l ++ ['/'])) = trimRightSlash (String.mk l)
    simp [trimRightSlash, List.reverse_append, List.dropWhile_cons]

theorem storeBeforeDoneAux_of_every {T : Type} (l : List (RelayEvent T))
    (prev : RelayEvent T) (h : storeBeforeEveryDone l = true) :
    storeBeforeDoneAux prev l = true := by
  cases l with
  | nil => rfl
  | cons e rest =>
    simp only [storeBeforeEveryDone, Bool.and_eq_true] at h
    have he : isDoneFrame e = false := by
      cases h2 : isDoneFrame e
      · rfl
      · rw [h2] at h
        simpa using h.1
    simp only [storeBeforeDoneAux, Bool.and_eq_true, he, if_false]
    exact ⟨rfl, h.2⟩

theorem storeBeforeEveryDone_deltaFrames_append {T : Type} (ds : List String)
    (tail : List (RelayEvent T)) (h : storeBeforeEveryDone tail = true) :
    storeBeforeEveryDone (deltaFrames ds ++ tail) = true := by
  induction ds with
  | nil => simpa [deltaFrames]
  | cons c ds ih =>
    simp only [deltaFrames, List.map_cons, List.cons_append]
    simp only [storeBeforeEveryDone, Bool.and_eq_true]
    refine ⟨rfl, ?_⟩
    exact storeBeforeDoneAux_of_every _ _ ih

theorem storeBeforeEveryDone_of_all_delta {T : Type} (l : List (RelayEvent T))
    (h : ∀ e ∈ l, ∃ c, e = RelayEvent.frame (Frame.delta c)) :
    storeBeforeEveryDone l = true := by
  induction l with
  | nil => rfl
  | cons e rest ih =>
    obtain ⟨c, hc⟩ := h e (List.mem_cons_self e rest)
    subst hc
    simp only [storeBeforeEveryDone, Bool.and_eq_true]
    refine ⟨rfl, ?_⟩
    exact storeBeforeDoneAux_of_every _ _ (ih (fun e he => h e (List.mem_cons_of_mem _ he)))

/-- C9: the outbound upstream request URL is the stored base URL with all
trailing '/' characters removed followed by "/chat/completions"; a base URL
stored with or without a trailing slash yields the same request URL, and the
trimmed base never ends in '/', so the join never doubles the slash. -/
theorem url_join_normalizes_trailing_slashes :
    ∀ b : String,
      buildChatCompletionsURL b = trimRightSlash b ++ "/chat/completions" ∧
      buildChatCompletionsURL (b ++ "/") = buildChatCompletionsURL b ∧
      ∀ c, (trimRightSlash b).data.getLast? = some c → (c == '/') = false := by
  intro b
  refine ⟨rfl, ?_, ?_⟩
  · simp only [buildChatCompletionsURL, trimRightSlash_append_slash]
  · intro c h
    simp only [trimRightSlash, String.data] at h
    rw [List.getLast?_reverse] at h
    exact head_dropWhile_eq_some (fun c => c == '/') b.data.reverse c h

/-- C9 witness: a base URL with two trailing slashes joins without a doubled
slash and equals the join of the same base without them. -/
theorem url_join_normalizes_trailing_slashes_witness :
    ((trimRightSlash "http://a.example/").data.getLast? = some 'e' ∧
      ('e' == '/') = false) ∧
    buildChatCompletionsURL ("http://a.example/" ++ "/") =
      buildChatCompletionsURL "http://a.example/" :=
  ⟨⟨by decide, (url_join_normalizes_trailing_slashes "http://a.example/").2.2 'e' (by decide)⟩,
   (url_join_normalizes_trailing_slashes "http://a.example/").2.1⟩

/-- C10: the chat-path request body always has exactly the constant system
message followed by the user message, temperature 0.3 and stream true; the
analysis-path body always has exactly one user message carrying the prompt,
no temperature field, and stream true. -/
theorem request_body_shapes :
    ∀ (name msg prompt : String),
      buildChatRequestBody name msg =
        ChatCompletionRequest.mk name
          [ChatRequestMessage.mk "system" chatSystemContent,
           ChatRequestMessage.mk "user" msg] true (some (3 / 10)) ∧
      (buildChatRequestBody name msg).messages.length = 2 ∧
      (buildChatRequestBody name msg).temperature = some (3 / 10) ∧
      (buildChatRequestBody name msg).stream = true ∧
      buildAnalysisRequestBody name prompt =
        ChatCompletionRequest.mk name [ChatRequestMessage.mk "user" prompt] true none ∧
      (buildAnalysisRequestBody name prompt).messages.length = 1 ∧
      (buildAnalysisRequestBody name prompt).temperature = none ∧
      (buildAnalysisRequestBody name prompt).stream = true :=
  fun _ _ _ => ⟨rfl, rfl, rfl, rfl, rfl, rfl, rfl, rfl⟩

/-- C1 (code-bug evidence): on an upstream stream consisting of the single
line "data: [DONE]" followed by clean EOF, the chat relay creates two
identical transcripts and emits two done frames (the post-loop
finishedNormally block re-runs the store and done that the [DONE] branch
already performed), and the analysis relay emits two done frames around a
single store; the claim (and the source comment at the post-loop block)
requires exactly one of each. -/
theorem done_sentinel_double_emit :
    chatRelay decodeNone 1 2 "hi" none ["data: [DONE]"] Ending.eof =
      ([RelayEvent.store (AIChatMessage.mk 1 2 "hi" ""), RelayEvent.frame Frame.done,
        RelayEvent.store (AIChatMessage.mk 1 2 "hi" ""), RelayEvent.frame Frame.done],
       Outcome.completed) ∧
    List.countP (fun e => isStoreEvent e)
      (chatRelay decodeNone 1 2 "hi" none ["data: [DONE]"] Ending.eof).1 = 2 ∧
    List.countP (fun e => isDoneFrame e)
      (chatRelay decodeNone 1 2 "hi" none ["data: [DONE]"] Ending.eof).1 = 2 ∧
    analysisRelay decodeNone 1 2 "2024-01-01" "2024-12-31" none
        ["data: [DONE]"] Ending.eof =
      ([RelayEvent.frame Frame.done,
        RelayEvent.store (AIAnalysisHistory.mk 1 2 "2024-01-01" "2024-12-31" ""),
        RelayEvent.frame Frame.done],
       AnalysisResult.ok) ∧
    List.countP (fun e => isDoneFrame e)
      (analysisRelay decodeNone 1 2 "2024-01-01" "2024-12-31" none
        ["data: [DONE]"] Ending.eof).1 = 2 := by
  decide

/-- C3 counterexample: on a 401 upstream status the chat path does emit SSE
frames (an error frame followed by a done frame), contradicting the claim
that no delta, done or error frame is emitted on a non-2xx status. -/
theorem prestream_error_frames_cex :
    (chatHandleResponse decodeNone 1 2 "hi" none
        (UpstreamResponse.mk 401 "bad key" [] Ending.eof)).1 =
      [RelayEvent.frame (Frame.error "AI服务返回错误: 401 bad key"),
       RelayEvent.frame Frame.done] ∧
    (chatHandleResponse decodeNone 1 2 "hi" none
        (UpstreamResponse.mk 401 "bad key" [] Ending.eof)).1 ≠ [] := by
  decide

/-- C3 (amended): on a non-2xx upstream status neither path stores a
transcript or emits any delta frame; the analysis path emits no SSE frame at
all and returns a structured error carrying the status and body, while the
chat path emits exactly one error frame followed by one done frame. -/
theorem prestream_error_behavior :
    ∀ (decode : String → Option (List (String × JVal))) (m u : Nat)
      (msg sd ed : String) (cancel : Option Nat) (resp : UpstreamResponse),
      resp.statusCode ≠ 200 →
      chatHandleResponse decode m u msg cancel resp =
        ([RelayEvent.frame (Frame.error
            ("AI服务返回错误: " ++ Nat.repr resp.statusCode ++ " " ++ resp.errBody)),
          RelayEvent.frame Frame.done],
         Outcome.faulted) ∧
      analysisHandleResponse decode m u sd ed cancel resp =
        ([], AnalysisResult.err
          ("AI服务返回错误: " ++ Nat.repr resp.statusCode ++ ", " ++ resp.errBody)) := by
  intro decode m u msg sd ed cancel resp h
  constructor
  · simp [chatHandleResponse, h]
  · simp [analysisHandleResponse, h]

/-- C3 witness: the amended behavior evaluated at a concrete 401 response. -/
theorem prestream_error_behavior_witness :
    (UpstreamResponse.mk 401 "bad key" [] Ending.eof).statusCode ≠ 200 ∧
    analysisHandleResponse decodeNone 1 2 "2024-01-01" "2024-12-31" none
        (UpstreamResponse.mk 401 "bad key" [] Ending.eof) =
      ([], AnalysisResult.err "AI服务返回错误: 401, bad key") :=
  ⟨by decide,
   (prestream_error_behavior decodeNone 1 2 "hi" "2024-01-01" "2024-12-31" none
     (UpstreamResponse.mk 401 "bad key" [] Ending.eof) (by decide)).2⟩

/-- C4 counterexample: a normally-completing chat invocation (clean EOF with
no lines) stores the transcript first and only then emits the done frame, so
it is false that the client has received done before persistence is
attempted. -/
theorem done_before_store_cex :
    (chatRelay decodeNone 1 2 "hi" none [] Ending.eof).2 = Outcome.completed ∧
    doneBeforeEveryStore (chatRelay decodeNone 1 2 "hi" none [] Ending.eof).1 = false ∧
    (chatRelay decodeNone 1 2 "hi" none [] Ending.eof).1 =
      [RelayEvent.store (AIChatMessage.mk 1 2 "hi" ""), RelayEvent.frame Frame.done] := by
  decide

theorem storeBeforeEveryDone_pair {T : Type} (t : T) :
    storeBeforeEveryDone [RelayEvent.store t, RelayEvent.frame Frame.done] = true := by
  simp [storeBeforeEveryDone, storeBeforeDoneAux, isDoneFrame, isStoreEvent]

theorem storeBeforeEveryDone_four {T : Type} (t s : T) :
    storeBeforeEveryDone [RelayEvent.store t, RelayEvent.frame Frame.done,
      RelayEvent.store s, RelayEvent.frame Frame.done] = true := by
  simp [storeBeforeEveryDone, storeBeforeDoneAux, isDoneFrame, isStoreEvent]

/-- C4 (amended): in the chat path every done frame is immediately preceded
by a transcript store attempt; persistence is attempted before the client
receives its done frame, not after. -/
theorem store_precedes_done :
    ∀ (decode : String → Option (List (String × JVal))) (m u : Nat) (msg : String)
      (cancel : Option Nat) (lines : List String) (ending : Ending),
      storeBeforeEveryDone (chatRelay decode m u msg cancel lines ending).1 = true := by
  intro decode m u msg cancel lines ending
  simp only [chatRelay]
  rcases chatLoop_cancel_cases decode m u msg ending lines cancel "" with heq | hr
  · rw [heq, chatLoop_none_eq]
    split_ifs with h
    · exact storeBeforeEveryDone_deltaFrames_append _ _ (storeBeforeEveryDone_four _ _)
    · cases ending
      · exact storeBeforeEveryDone_deltaFrames_append _ _ (storeBeforeEveryDone_pair _)
      · have h2 := storeBeforeEveryDone_deltaFrames_append
          (T := AIChatMessage) (deltasBeforeTerm decode lines) [] rfl
        simpa using h2
  · exact storeBeforeEveryDone_of_all_delta _ hr.2

/-- C2: whenever a relay invocation persists a transcript, the stored output
text equals the exact in-order concatenation of every delta content extracted
from the upstream stream during that invocation; noise lines contribute
nothing and no delta is dropped, reordered or deduplicated. -/
theorem accumulation_fidelity :
    (∀ (decode : String → Option (List (String × JVal))) (m u : Nat) (msg : String)
       (cancel : Option Nat) (lines : List String) (ending : Ending) (t : AIChatMessage),
       RelayEvent.store t ∈ (chatRelay decode m u msg cancel lines ending).1 →
       t.aiText = strConcat (deltasBeforeTerm decode lines)) ∧
    (∀ (decode : String → Option (List (String × JVal))) (m u : Nat) (sd ed : String)
       (cancel : Option Nat) (lines : List String) (ending : Ending) (r : AIAnalysisHistory),
       RelayEvent.store r ∈ (analysisRelay decode m u sd ed cancel lines ending).1 →
       r.result = strConcat (deltasBeforeTerm decode lines)) := by
  constructor
  · intro decode m u msg cancel lines ending t hmem
    simp only [chatRelay] at hmem
    rcases chatLoop_cancel_cases decode m u msg ending lines cancel "" with heq | hr
    · rw [heq, chatLoop_none_eq] at hmem
      by_cases h : hasTermLine decode lines
      · rw [if_pos h] at hmem
        dsimp only at hmem
        rw [List.mem_append] at hmem
        rcases hmem with hmem | hmem
        · obtain ⟨c, hc⟩ := mem_deltaFrames _ _ hmem
          exact absurd hc (by simp)
        · simp only [List.mem_cons, List.not_mem_nil, or_false] at hmem
          rcases hmem with h1 | h1 | h1 | h1
          · injection h1 with h2
            rw [h2]
            exact empty_strAppend _
          · exact absurd h1 (by simp)
          · injection h1 with h2
            rw [h2]
            exact empty_strAppend _
          · exact absurd h1 (by simp)
      · rw [if_neg h] at hmem
        cases ending
        · dsimp only at hmem
          rw [List.mem_append] at hmem
          rcases hmem with hmem | hmem
          · obtain ⟨c, hc⟩ := mem_deltaFrames _ _ hmem
            exact absurd hc (by simp)
          · simp only [List.mem_cons, List.not_mem_nil, or_false] at hmem
            rcases hmem with h1 | h1
            · injection h1 with h2
              rw [h2]
              exact empty_strAppend _
            · exact absurd h1 (by simp)
        · dsimp only at hmem
          obtain ⟨c, hc⟩ := mem_deltaFrames _ _ hmem
          exact absurd hc (by simp)
    · obtain ⟨c, hc⟩ := hr.2 _ hmem
      exact absurd hc (by simp)
  · intro decode m u sd ed cancel lines ending r hmem
    simp only [analysisRelay] at hmem
    rcases analysisLoop_cancel_cases decode m u sd ed ending lines cancel "" with heq | hr
    · rw [heq, analysisLoop_none_eq] at hmem
      by_cases h : hasTermLine decode lines
      · rw [if_pos h] at hmem
        dsimp only at hmem
        rw [List.mem_append] at hmem
        rcases hmem with hmem | hmem
        · obtain ⟨c, hc⟩ := mem_deltaFrames _ _ hmem
          exact absurd hc (by simp)
        · simp only [List.mem_cons, List.not_mem_nil, or_false] at hmem
          rcases hmem with h1 | h1 | h1
          · exact absurd h1 (by simp)
          · injection h1 with h2
            rw [h2]
            exact empty_strAppend _
          · exact absurd h1 (by simp)
      · rw [if_neg h] at hmem
        cases ending
        · dsimp only at hmem
          rw [List.mem_append] at hmem
          rcases hmem with hmem | hmem
          · obtain ⟨c, hc⟩ := mem_deltaFrames _ _ hmem
            exact absurd hc (by simp)
          · simp only [List.mem_cons, List.not_mem_nil, or_false] at hmem
            rcases hmem with h1 | h1
            · injection h1 with h2
              rw [h2]
              exact empty_strAppend _
            · exact absurd h1 (by simp)
        · dsimp only at hmem
          obtain ⟨c, hc⟩ := mem_deltaFrames _ _ hmem
          exact absurd hc (by simp)
    · obtain ⟨c, hc⟩ := hr.2 _ hmem
      exact absurd hc (by simp)

/-- C2 witness: the concrete two-delta stream persists exactly the
concatenation "Hi there". -/
theorem accumulation_fidelity_witness :
    RelayEvent.store (AIChatMessage.mk 1 2 "hi" "Hi there") ∈
      (chatRelay decode0 1 2 "hi" none
        ["data: one", "data: two", "data: [DONE]"] Ending.eof).1 ∧
    (AIChatMessage.mk 1 2 "hi" "Hi there").aiText =
      strConcat (deltasBeforeTerm decode0 ["data: one", "data: two", "data: [DONE]"]) :=
  ⟨by decide,
   accumulation_fidelity.1 decode0 1 2 "hi" none
     ["data: one", "data: two", "data: [DONE]"] Ending.eof
     (AIChatMessage.mk 1 2 "hi" "Hi there") (by decide)⟩

/-- C5: when the downstream disconnect is observed before a terminal
classification, the loop stops with no transcript stored and no done or
error frame emitted (the trace holds delta frames only). -/
theorem cancellation_silence :
    (∀ (decode : String → Option (List (String × JVal))) (m u : Nat) (msg : String)
       (cancel : Option Nat) (lines : List String) (ending : Ending),
       (chatRelay decode m u msg cancel lines ending).2 = Outcome.cancelled →
       (∀ t, RelayEvent.store t ∉ (chatRelay decode m u msg cancel lines ending).1) ∧
       RelayEvent.frame Frame.done ∉ (chatRelay decode m u msg cancel lines ending).1 ∧
       (∀ s, RelayEvent.frame (Frame.error s) ∉
         (chatRelay decode m u msg cancel lines ending).1)) ∧
    (∀ (decode : String → Option (List (String × JVal))) (m u : Nat) (sd ed : String)
       (cancel : Option Nat) (lines : List String) (ending : Ending),
       (analysisRelay decode m u sd ed cancel lines ending).2 =
         AnalysisResult.err "客户端断开连接" →
       (∀ r, RelayEvent.store r ∉ (analysisRelay decode m u sd ed cancel lines ending).1) ∧
       RelayEvent.frame Frame.done ∉ (analysisRelay decode m u sd ed cancel lines ending).1 ∧
       (∀ s, RelayEvent.frame (Frame.error s) ∉
         (analysisRelay decode m u sd ed cancel lines ending).1)) := by
  constructor
  · intro decode m u msg cancel lines ending hout
    simp only [chatRelay] at hout ⊢
    rcases chatLoop_cancel_cases decode m u msg ending lines cancel "" with heq | hr
    · rw [heq] at hout
      exact absurd hout (chatLoop_none_not_cancelled decode m u msg ending lines "")
    · refine ⟨?_, ?_, ?_⟩
      · intro t hmem
        obtain ⟨c, hc⟩ := hr.2 _ hmem
        exact absurd hc (by simp)
      · intro hmem
        obtain ⟨c, hc⟩ := hr.2 _ hmem
        simp at hc
      · intro s hmem
        obtain ⟨c, hc⟩ := hr.2 _ hmem
        simp at hc
  · intro decode m u sd ed cancel lines ending hout
    simp only [analysisRelay] at hout ⊢
    rcases analysisLoop_cancel_cases decode m u sd ed ending lines cancel "" with heq | hr
    · rw [heq] at hout
      exact absurd hout (analysisLoop_none_not_disconnect decode m u sd ed ending lines "")
    · refine ⟨?_, ?_, ?_⟩
      · intro r hmem
        obtain ⟨c, hc⟩ := hr.2 _ hmem
        exact absurd hc (by simp)
      · intro hmem
        obtain ⟨c, hc⟩ := hr.2 _ hmem
        simp at hc
      · intro s hmem
        obtain ⟨c, hc⟩ := hr.2 _ hmem
        simp at hc

/-- C5 witness: a disconnect observed at the second check stops the chat
relay after one delta; outcome is cancelled and no done frame was sent. -/
theorem cancellation_silence_witness :
    (chatRelay decode0 1 2 "hi" (some 1) ["data: one", "data: two"] Ending.eof).2 =
      Outcome.cancelled ∧
    RelayEvent.frame Frame.done ∉
      (chatRelay decode0 1 2 "hi" (some 1) ["data: one", "data: two"] Ending.eof).1 :=
  ⟨by decide,
   (cancellation_silence.1 decode0 1 2 "hi" (some 1) ["data: one", "data: two"]
     Ending.eof (by decide)).2.1⟩

/-- C6: a mid-stream read fault that is not a clean EOF yields zero
transcripts and no done frame in either path. -/
theorem midstream_fault_silence :
    (∀ (decode : String → Option (List (String × JVal))) (m u : Nat) (msg : String)
       (cancel : Option Nat) (lines : List String) (ending : Ending),
       (chatRelay decode m u msg cancel lines ending).2 = Outcome.faulted →
       (∀ t, RelayEvent.store t ∉ (chatRelay decode m u msg cancel lines ending).1) ∧
       RelayEvent.frame Frame.done ∉ (chatRelay decode m u msg cancel lines ending).1) ∧
    (∀ (decode : String → Option (List (String × JVal))) (m u : Nat) (sd ed : String)
       (cancel : Option Nat) (lines : List String) (ending : Ending),
       (analysisRelay decode m u sd ed cancel lines ending).2 =
         AnalysisResult.err "读取流数据失败" →
       (∀ r, RelayEvent.store r ∉ (analysisRelay decode m u sd ed cancel lines ending).1) ∧
       RelayEvent.frame Frame.done ∉ (analysisRelay decode m u sd ed cancel lines ending).1) := by
  constructor
  · intro decode m u msg cancel lines ending hout
    simp only [chatRelay] at hout ⊢
    rcases chatLoop_cancel_cases decode m u msg ending lines cancel "" with heq | hr
    · rw [heq] at hout ⊢
      rw [chatLoop_none_eq] at hout ⊢
      by_cases h : hasTermLine decode lines
      · rw [if_pos h] at hout
        simp at hout
      · rw [if_neg h] at hout ⊢
        cases ending
        · simp at hout
        · dsimp only
          constructor
          · intro t hmem
            obtain ⟨c, hc⟩ := mem_deltaFrames _ _ hmem
            exact absurd hc (by simp)
          · intro hmem
            obtain ⟨c, hc⟩ := mem_deltaFrames _ _ hmem
            simp at hc
    · obtain ⟨h1, h2⟩ := hr
      rw [hout] at h1
      exact absurd h1 (by simp)
  · intro decode m u sd ed cancel lines ending hout
    simp only [analysisRelay] at hout ⊢
    rcases analysisLoop_cancel_cases decode m u sd ed ending lines cancel "" with heq | hr
    · rw [heq] at hout ⊢
      rw [analysisLoop_none_eq] at hout ⊢
      by_cases h : hasTermLine decode lines
      · rw [if_pos h] at hout
        simp at hout
      · rw [if_neg h] at hout ⊢
        cases ending
        · simp at hout
        · dsimp only
          constructor
          · intro r hmem
            obtain ⟨c, hc⟩ := mem_deltaFrames _ _ hmem
            exact absurd hc (by simp)
          · intro hmem
            obtain ⟨c, hc⟩ := mem_deltaFrames _ _ hmem
            simp at hc
    · obtain ⟨h1, h2⟩ := hr
      rw [hout] at h1
      have : ("读取流数据失败" : String) = "客户端断开连接" := by injection h1
      exact absurd this (by decide)

/-- C6 witness: a read fault after one delta leaves outcome faulted with no
done frame in the trace. -/
theorem midstream_fault_silence_witness :
    (chatRelay decode0 1 2 "hi" none ["data: one"] Ending.fault).2 = Outcome.faulted ∧
    RelayEvent.frame Frame.done ∉
      (chatRelay decode0 1 2 "hi" none ["data: one"] Ending.fault).1 :=
  ⟨by decide,
   (midstream_fault_silence.1 decode0 1 2 "hi" none ["data: one"] Ending.fault
     (by decide)).2⟩

/-- C7: a clean EOF without the [DONE] sentinel is treated as normal
completion in both paths: all deltas are forwarded in order, exactly one
transcript is stored with their concatenation, and one done frame follows. -/
theorem tolerated_eof_completion :
    (∀ (decode : String → Option (List (String × JVal))) (m u : Nat) (msg : String)
       (lines : List String), hasTermLine decode lines = false →
       chatRelay decode m u msg none lines Ending.eof =
         (deltaFrames (deltasBeforeTerm decode lines) ++
           [RelayEvent.store (chatMsg m u msg (strConcat (deltasBeforeTerm decode lines))),
            RelayEvent.frame Frame.done],
          Outcome.completed)) ∧
    (∀ (decode : String → Option (List (String × JVal))) (m u : Nat) (sd ed : String)
       (lines : List String), hasTermLine decode lines = false →
       analysisRelay decode m u sd ed none lines Ending.eof =
         (deltaFrames (deltasBeforeTerm decode lines) ++
           [RelayEvent.store (analysisRecord m u sd ed
              (strConcat (deltasBeforeTerm decode lines))),
            RelayEvent.frame Frame.done],
          AnalysisResult.ok)) := by
  constructor
  · intro decode m u msg lines h
    simp only [chatRelay]
    rw [chatLoop_none_eq]
    rw [if_neg (by simp [h])]
    rw [empty_strAppend]
  · intro decode m u sd ed lines h
    simp only [analysisRelay]
    rw [analysisLoop_none_eq]
    rw [if_neg (by simp [h])]
    rw [empty_strAppend]

/-- C7 witness: two delta lines and a clean close with no sentinel produce
the two forwarded deltas, one stored transcript "Hi there" and one done. -/
theorem tolerated_eof_completion_witness :
    hasTermLine decode0 ["data: one", "data: two"] = false ∧
    chatRelay decode0 1 2 "hi" none ["data: one", "data: two"] Ending.eof =
      ([RelayEvent.frame (Frame.delta "Hi"), RelayEvent.frame (Frame.delta " there"),
        RelayEvent.store (AIChatMessage.mk 1 2 "hi" "Hi there"),
        RelayEvent.frame Frame.done],
       Outcome.completed) :=
  ⟨by decide, by
    have h := tolerated_eof_completion.1 decode0 1 2 "hi" ["data: one", "data: two"]
      (by decide)
    rw [h]
    decide⟩

theorem deltasBeforeTerm_insert (decode : String → Option (List (String × JVal)))
    (n : String) (h : classifyLine decode n = LineKind.noise) :
    ∀ pre post, deltasBeforeTerm decode (pre ++ n :: post) =
      deltasBeforeTerm decode (pre ++ post) := by
  intro pre
  induction pre with
  | nil =>
    intro post
    simp [deltasBeforeTerm, h]
  | cons p pre ih =>
    intro post
    simp only [List.cons_append, deltasBeforeTerm]
    cases hcl : classifyLine decode p <;> simp [ih]

theorem hasTermLine_insert (decode : String → Option (List (String × JVal)))
    (n : String) (h : classifyLine decode n = LineKind.noise) :
    ∀ pre post, hasTermLine decode (pre ++ n :: post) =
      hasTermLine decode (pre ++ post) := by
  intro pre
  induction pre with
  | nil =>
    intro post
    simp [hasTermLine, h]
  | cons p pre ih =>
    intro post
    simp only [List.cons_append, hasTermLine]
    cases hcl : classifyLine decode p <;> simp [ih]

/-- C8: a line that is blank, lacks the data marker, fails envelope parsing,
or parses with empty or absent content classifies as noise; inserting such a
line anywhere in the stream leaves the whole relay trace of either path
unchanged, so noise never contributes output and never aborts the loop. -/
theorem noise_tolerance :
    (∀ (decode : String → Option (List (String × JVal))) (l : String),
       classifyLine decode l = LineKind.noise ↔
         ((trimSpace l).data = [] ∨ hasDataMarker (trimSpace l) = false ∨
          (dropMarker (trimSpace l) ≠ "[DONE]" ∧
            (decode (dropMarker (trimSpace l)) = none ∨
             ∃ fields, decode (dropMarker (trimSpace l)) = some fields ∧
               extractContent fields = "")))) ∧
    (∀ (decode : String → Option (List (String × JVal))) (m u : Nat) (msg : String)
       (ending : Ending) (pre post : List String) (n : String),
       classifyLine decode n = LineKind.noise →
       chatRelay decode m u msg none (pre ++ n :: post) ending =
         chatRelay decode m u msg none (pre ++ post) ending) ∧
    (∀ (decode : String → Option (List (String × JVal))) (m u : Nat) (sd ed : String)
       (ending : Ending) (pre post : List String) (n : String),
       classifyLine decode n = LineKind.noise →
       analysisRelay decode m u sd ed none (pre ++ n :: post) ending =
         analysisRelay decode m u sd ed none (pre ++ post) ending) := by
  refine ⟨?_, ?_, ?_⟩
  · intro decode l
    constructor
    · intro h
      simp only [classifyLine] at h
      by_cases h1 : (trimSpace l).data = []
      · exact Or.inl h1
      · rw [if_neg h1] at h
        by_cases h2 : hasDataMarker (trimSpace l) = false
        · exact Or.inr (Or.inl h2)
        · rw [if_neg h2] at h
          right
          right
          by_cases h3 : dropMarker (trimSpace l) = "[DONE]"
          · rw [if_pos h3] at h
            exact absurd h (by simp)
          · rw [if_neg h3] at h
            refine ⟨h3, ?_⟩
            cases hdec : decode (dropMarker (trimSpace l)) with
            | none => exact Or.inl rfl
            | some fields =>
              by_cases hc : extractContent fields = ""
              · exact Or.inr ⟨fields, rfl, hc⟩
              · rw [hdec] at h
                simp only [hc, if_neg hc] at h
                simp at h
    · intro h
      simp only [classifyLine]
      rcases h with h1 | h2 | ⟨h3, h4⟩
      · simp [h1]
      · by_cases h1 : (trimSpace l).data = []
        · simp [h1]
        · simp [h1, h2]
      · by_cases h1 : (trimSpace l).data = []
        · simp [h1]
        · by_cases h2 : hasDataMarker (trimSpace l) = false
          · simp [h1, h2]
          · rcases h4 with hdec | ⟨fields, hdec, hc⟩
            · simp [h1, h2, h3, hdec]
            · simp [h1, h2, h3, hdec, hc]
  · intro decode m u msg ending pre post n h
    simp only [chatRelay]
    rw [chatLoop_none_eq, chatLoop_none_eq]
    rw [deltasBeforeTerm_insert decode n h pre post, hasTermLine_insert decode n h pre post]
  · intro decode m u sd ed ending pre post n h
    simp only [analysisRelay]
    rw [analysisLoop_none_eq, analysisLoop_none_eq]
    rw [deltasBeforeTerm_insert decode n h pre post, hasTermLine_insert decode n h pre post]

/-- C8 witness: inserting the unparsable line "junk" between two delta lines
leaves the chat relay trace unchanged. -/
theorem noise_tolerance_witness :
    classifyLine decode0 "junk" = LineKind.noise ∧
    chatRelay decode0 1 2 "hi" none (["data: one"] ++ "junk" :: ["data: two"]) Ending.eof =
      chatRelay decode0 1 2 "hi" none (["data: one"] ++ ["data: two"]) Ending.eof :=
  ⟨by decide,
   noise_tolerance.2.1 decode0 1 2 "hi" Ending.eof ["data: one"] ["data: two"] "junk"
     (by decide)⟩

end Finance
